import Mathlib

/-!
Shallow embedding of galactus `internal/server.go`: the rate gate
(`IncrAndTestGuildTokenComboLock`), the blacklist
(`BlacklistTokenForDuration`), secondary-session selection
(`getAnySession`), the `/modify` handler worker loop, and `waitForAck`.

Time is modelled in milliseconds (Go `time.Duration` scaled): `now` is an
absolute instant, a Redis TTL is an absolute expiry instant.  Redis string
counters are `Int` (Go int64).
-/

/-- One millisecond-denominated second (`time.Second`). -/
def msSecond : Nat := 1000

/-- `time.Minute` in milliseconds. -/
def msMinute : Nat := 60 * msSecond

/-- `DefaultCaptureBotTimeout = time.Second` (the ack wait default, 1000 ms). -/
def DefaultCaptureBotTimeout : Nat := msSecond

/-- `UnresponsiveCaptureBlacklistDuration = time.Minute * 5`. -/
def UnresponsiveCaptureBlacklistDuration : Nat := 5 * msMinute

/-- A Redis string entry holding a counter: its value and optional absolute
expiry instant (`none` = no TTL, the key persists). -/
structure RateEntry where
  value : Int
  expiry : Option Nat
deriving Repr, DecidableEq

/-- The slice of Redis state the embedded code touches: the
`rediskey.GuildTokenLock(guildID, hashToken)` counters, keyed by the
`(guildID, hashToken)` pair, and the `rediskey.GuildTokensKey(guildID)`
sets of identity hashes. -/
structure RedisStore where
  counters : String × String → Option RateEntry
  guildTokens : String → List String

/-- The store in which no key exists. -/
def emptyStore : RedisStore := ⟨fun _ => none, fun _ => []⟩

/-- Is the entry alive at instant `now` (Redis drops a key once its TTL
elapses)? -/
def entryLive (e : RateEntry) (now : Nat) : Bool :=
  match e.expiry with
  | none => true
  | some t => now < t

/-- Look up a counter key, respecting expiry: an expired key reads as absent. -/
def liveEntry (s : RedisStore) (now : Nat) (k : String × String) : Option RateEntry :=
  match s.counters k with
  | some e => if entryLive e now then some e else none
  | none => none

/-- The live integer value of a counter key (0 when absent, as for Redis INCR
on a missing key starting from 0). -/
def liveValue (s : RedisStore) (now : Nat) (k : String × String) : Int :=
  match liveEntry s now k with
  | some e => e.value
  | none => 0

/-- Overwrite one counter key. -/
def setCounter (s : RedisStore) (k : String × String) (e : RateEntry) : RedisStore :=
  { s with counters := fun k2 => if k2 = k then some e else s.counters k2 }

/-- Redis `INCR`: a missing (or expired) key is created at value 1 with no
TTL; a live key is incremented keeping its TTL.  Returns the post-increment
value. -/
def redisIncr (s : RedisStore) (now : Nat) (k : String × String) : Int × RedisStore :=
  match liveEntry s now k with
  | some e => (e.value + 1, setCounter s k ⟨e.value + 1, e.expiry⟩)
  | none => (1, setCounter s k ⟨1, none⟩)

/-- Redis `EXPIRE key d`: set the TTL of a live key to elapse `d` after `now`;
no-op on a missing key. -/
def redisExpire (s : RedisStore) (now : Nat) (k : String × String) (d : Nat) : RedisStore :=
  match liveEntry s now k with
  | some e => setCounter s k ⟨e.value, some (now + d)⟩
  | none => s

/-- Redis `SET key v EX d`: overwrite the key with value `v` and TTL `d`. -/
def redisSetEx (s : RedisStore) (now : Nat) (k : String × String) (v : Int) (d : Nat) : RedisStore :=
  setCounter s k ⟨v, some (now + d)⟩

/-- Redis `SREM` on a `GuildTokensKey` set. -/
def sremGuildToken (s : RedisStore) (guildID hashToken : String) : RedisStore :=
  { s with guildTokens := fun g2 =>
      if g2 = guildID then (s.guildTokens guildID).filter (fun x => x ≠ hashToken)
      else s.guildTokens g2 }

/-- Outcome of the `client.Incr` call inside the gate: `ok` is the normal
path, `err` is a store error (the Go code logs it and keeps the zero value
`i = 0`). -/
inductive IncrOutcome where
  | ok
  | err
deriving Repr, DecidableEq

/-- Embedding of `IncrAndTestGuildTokenComboLock` (server.go:158-175).
`maxReq` is `tokenProvider.maxRequests5Seconds`.  Increments the
`GuildTokenLock(guildID, hashToken)` counter; `usable := i < maxReq`; when
not usable, returns false with no further store access; when usable, calls
`EXPIRE ... 5s` and returns true.  On an `Incr` error the Go variable `i`
retains its zero value and control falls through identically. -/
def IncrAndTestGuildTokenComboLock (maxReq : Int) (outcome : IncrOutcome)
    (s : RedisStore) (now : Nat) (guildID hashToken : String) : Bool × RedisStore :=
  match outcome with
  | IncrOutcome.ok =>
    let r := redisIncr s now (guildID, hashToken)
    if r.1 < maxReq then
      (true, redisExpire r.2 now (guildID, hashToken) (5 * msSecond))
    else
      (false, r.2)
  | IncrOutcome.err =>
    if (0 : Int) < maxReq then
      (true, redisExpire s now (guildID, hashToken) (5 * msSecond))
    else
      (false, s)

/-- Embedding of `BlacklistTokenForDuration` (server.go:177-179): `SET` the
counter to `maxRequests5Seconds` with the given TTL. -/
def BlacklistTokenForDuration (maxReq : Int) (s : RedisStore) (now : Nat)
    (guildID hashToken : String) (duration : Nat) : RedisStore :=
  redisSetEx s now (guildID, hashToken) maxReq duration

/-- A sequence of rate-gate calls on one `(guildID, hashToken)` pair, one per
listed instant, threading the store.  Returns the list of gate results in
order together with the final store. -/
def rateGateCallSeq (maxReq : Int) (guildID hashToken : String) :
    RedisStore → List Nat → List Bool × RedisStore
  | s, [] => ([], s)
  | s, t :: ts =>
    let r := IncrAndTestGuildTokenComboLock maxReq IncrOutcome.ok s t guildID hashToken
    let rest := rateGateCallSeq maxReq guildID hashToken r.2 ts
    (r.1 :: rest.1, rest.2)

/-- A burst of `k` consecutive rate-gate calls at one instant `now` (all
within a single 5-second window, so no key expires in between).  Returns how
many calls were allowed together with the final store. -/
def rateGateBurst (maxReq : Int) (s : RedisStore) (now : Nat)
    (guildID hashToken : String) : Nat → Nat × RedisStore
  | 0 => (0, s)
  | Nat.succ n =>
    let p := rateGateBurst maxReq s now guildID hashToken n
    let q := IncrAndTestGuildTokenComboLock maxReq IncrOutcome.ok p.2 now guildID hashToken
    (p.1 + (if q.1 then 1 else 0), q.2)

/-- Embedding of the `PremiumBotConstraints` map (server.go:31-38).  A Go map
lookup of an absent key yields the zero value, so an unknown tier maps to 0. -/
def PremiumBotConstraints (tier : Int) : Nat :=
  if tier = 0 then 0
  else if tier = 1 then 0
  else if tier = 2 then 1
  else if tier = 3 then 3
  else if tier = 4 then 10
  else if tier = 5 then 100
  else 0

/-- Embedding of the loop body of `getAnySession` (server.go:134-156).
`active` is the `activeSessions` registry keyed by identity hash (`true` =
a live session is present; the session object itself is identified here by
its hash).  Arguments: the store, the snapshotted token sequence still to
visit, the current range index `i`, and `limit`.  Returns the selected
identity hash (if any), the final store, and the trace of identity hashes
on which the rate gate was invoked, in order. -/
def getAnySessionAux (maxReq : Int) (active : String → Bool) (now : Nat)
    (guildID : String) : RedisStore → List String → Nat → Nat →
    Option String × RedisStore × List String
  | s, [], _i, _limit => (none, s, [])
  | s, hToken :: rest, i, limit =>
    if i = limit then (none, s, [])
    else
      let r := IncrAndTestGuildTokenComboLock maxReq IncrOutcome.ok s now guildID hToken
      if r.1 then
        if active hToken then (some hToken, r.2, [hToken])
        else
          -- remove this key from our records and keep going
          let s2 := sremGuildToken r.2 guildID hToken
          let rec2 := getAnySessionAux maxReq active now guildID s2 rest (i + 1) limit
          (rec2.1, rec2.2.1, hToken :: rec2.2.2)
      else
        -- potentially rate-limited: skip
        let rec2 := getAnySessionAux maxReq active now guildID r.2 rest (i + 1) limit
        (rec2.1, rec2.2.1, hToken :: rec2.2.2)

/-- Embedding of `getAnySession` (server.go:134): the range loop starts at
index 0. -/
def getAnySession (maxReq : Int) (active : String → Bool) (now : Nat)
    (guildID : String) (s : RedisStore) (tokens : List String) (limit : Nat) :
    Option String × RedisStore × List String :=
  getAnySessionAux maxReq active now guildID s tokens 0 limit

/-- The three dispatch tiers of the `/modify` worker loop, in source order. -/
inductive Tier where
  | secondary
  | capture
  | official
deriving Repr, DecidableEq

/-- Which counter one `UserModify` is charged to (`unaccounted` = all three
tiers failed; the user is charged to no counter). -/
inductive Outcome where
  | worker
  | capture
  | official
  | unaccounted
deriving Repr, DecidableEq

/-- Embedding of the per-request cascade in the `/modify` worker loop
(server.go:255-280): `attemptOnSecondaryTokens`, else `attemptOnCaptureBot`,
else `task.ApplyMuteDeaf` on the primary shard session.  `sec`, `cap`, `off`
are the success results of the three calls; the later calls only happen when
the earlier ones failed.  Returns the charged outcome together with the list
of tiers actually attempted, in order. -/
def dispatchUser (sec cap off : Bool) : Outcome × List Tier :=
  if sec then (Outcome.worker, [Tier.secondary])
  else if cap then (Outcome.capture, [Tier.secondary, Tier.capture])
  else if off then (Outcome.official, [Tier.secondary, Tier.capture, Tier.official])
  else (Outcome.unaccounted, [Tier.secondary, Tier.capture, Tier.official])

/-- `task.UserModify`: one user's requested voice-state change. -/
structure UserModify where
  userID : Nat
  mute : Bool
  deaf : Bool
deriving Repr, DecidableEq

/-- `task.UserModifyRequest`: the decoded `/modify` body. -/
structure UserModifyRequest where
  premium : Int
  users : List UserModify
deriving Repr, DecidableEq

/-- `task.MuteDeafenSuccessCounts`: the per-batch counters guarded by
`mdscLock`. -/
structure MuteDeafenSuccessCounts where
  Worker : Nat
  Capture : Nat
  Official : Nat
  RateLimit : Nat
deriving Repr, DecidableEq

/-- One counter increment under `mdscLock`, as performed by the worker loop
for a charged outcome (`unaccounted` touches no counter). -/
def tallyOutcome (m : MuteDeafenSuccessCounts) : Outcome → MuteDeafenSuccessCounts
  | Outcome.worker => { m with Worker := m.Worker + 1 }
  | Outcome.capture => { m with Capture := m.Capture + 1 }
  | Outcome.official => { m with Official := m.Official + 1 }
  | Outcome.unaccounted => m

/-- The counter one user is charged to, given the three tier-call results. -/
def userOutcome (oracle : UserModify → Bool × Bool × Bool) (u : UserModify) : Outcome :=
  (dispatchUser (oracle u).1 (oracle u).2.1 (oracle u).2.2).1

/-- The aggregate effect of the `/modify` worker pool on the batch counters:
each queued `UserModify` runs the tier cascade once and charges one counter
(or none).  `oracle` gives the three tier-call success results for a user;
counters start at zero as in the handler. -/
def runModifyWorkers (oracle : UserModify → Bool × Bool × Bool)
    (users : List UserModify) : MuteDeafenSuccessCounts :=
  users.foldl (fun m u => tallyOutcome m (userOutcome oracle u)) ⟨0, 0, 0, 0⟩

/-- How many users of the batch end the cascade uncharged. -/
def unaccountedCount (oracle : UserModify → Bool × Bool × Bool)
    (users : List UserModify) : Nat :=
  (users.filter (fun u => userOutcome oracle u = Outcome.unaccounted)).length

/-- Go `strconv.ParseUint(s, 10, 64)`: decimal digits only, nonempty, value
below 2^64. -/
def parseUint64 (s : String) : Option Nat :=
  if s.data.isEmpty then none
  else
    s.data.foldl
      (fun acc c =>
        match acc with
        | none => none
        | some n =>
          if c.isDigit then
            if n * 10 + (c.toNat - 48) < 2 ^ 64 then some (n * 10 + (c.toNat - 48))
            else none
          else none)
      (some 0)

/-- `DefaultMaxWorkers` (server.go:185). -/
def DefaultMaxWorkers : Nat := 8

/-- Observable result of one `/modify` request. -/
structure ModifyResponse where
  status : Nat
  counts : Option MuteDeafenSuccessCounts
  workersSpawned : Nat
  tasksFed : Nat
deriving Repr, DecidableEq

/-- Embedding of the `/modify/{guildID}/{connectCode}` handler
(server.go:209-304).  A malformed `guildID` or an undecodable body yields
400 before any worker exists; otherwise the handler always starts
`maxWorkers` worker goroutines, feeds every `UserModify` of the batch onto
the task channel, waits, and answers 200 with the aggregated counters.
`body` is the result of `json.Unmarshal` (`none` = decode error). -/
def handleModify (maxWorkers : Nat) (oracle : UserModify → Bool × Bool × Bool)
    (guildID : String) (body : Option UserModifyRequest) : ModifyResponse :=
  match parseUint64 guildID with
  | none => ⟨400, none, 0, 0⟩
  | some _gid =>
    match body with
    | none => ⟨400, none, 0, 0⟩
    | some req =>
      ⟨200, some (runModifyWorkers oracle req.users), maxWorkers, req.users.length⟩

/-- The event that ends one `waitForAck` select: either the timer fires
first, or a message with the given payload arrives first. -/
inductive AckEvent where
  | timeout
  | payload (p : String)
deriving Repr, DecidableEq

/-- Observable result of `waitForAck`: the boolean sent on `result`, and
whether `pubsub.Close()` ran. -/
structure AckResult where
  result : Bool
  closed : Bool
deriving Repr, DecidableEq

/-- Embedding of `waitForAck` (server.go:438-455): `defer pubsub.Close()`
runs on every path; the timer branch sends `false`; the channel branch sends
`val.Payload == "true"`. -/
def waitForAck (ev : AckEvent) : AckResult :=
  match ev with
  | AckEvent.timeout => ⟨false, true⟩
  | AckEvent.payload p => ⟨p = "true", true⟩

/-- Modelled from the spec: the body of `attemptOnCaptureBot` is not under
src/ (server.go only calls it).  Per the spec (§4.3 step 5), on an ack
timeout or an explicit false ack it invokes
`BlacklistTokenForDuration(guildID, captureSentinelHash,
UnresponsiveCaptureBlacklistDuration)` and reports failure. -/
def captureBridgeTimeoutBlacklist (maxReq : Int) (s : RedisStore) (now : Nat)
    (guildID captureSentinel : String) : RedisStore :=
  BlacklistTokenForDuration maxReq s now guildID captureSentinel
    UnresponsiveCaptureBlacklistDuration

/-- The TTL an entry would keep through a bare `INCR` (the live entry's
expiry; `none` when the key is absent, since `INCR` creates it without a
TTL). -/
def liveExpiry (s : RedisStore) (now : Nat) (k : String × String) : Option Nat :=
  match liveEntry s now k with
  | some e => e.expiry
  | none => none

lemma RedisStore.ext2 (a b : RedisStore)
    (hc : ∀ k, a.counters k = b.counters k)
    (hg : ∀ g, a.guildTokens g = b.guildTokens g) : a = b := by
  cases a
  cases b
  simp only [RedisStore.mk.injEq]
  exact ⟨funext hc, funext hg⟩

lemma counters_setCounter_self (s : RedisStore) (k : String × String) (e : RateEntry) :
    (setCounter s k e).counters k = some e := by
  simp [setCounter]

lemma setCounter_setCounter (s : RedisStore) (k : String × String) (e1 e2 : RateEntry) :
    setCounter (setCounter s k e1) k e2 = setCounter s k e2 := by
  apply RedisStore.ext2
  · intro x
    by_cases hx : x = k <;> simp [setCounter, hx]
  · intro g
    simp [setCounter]

lemma liveEntry_setCounter_self (s : RedisStore) (k : String × String) (e : RateEntry) (now : Nat) :
    liveEntry (setCounter s k e) now k = if entryLive e now then some e else none := by
  simp [liveEntry, setCounter]

lemma entryLive_of_liveEntry (s : RedisStore) (now : Nat) (k : String × String)
    (e : RateEntry) (h : liveEntry s now k = some e) : entryLive e now = true := by
  unfold liveEntry at h
  cases hc : s.counters k with
  | none => simp [hc] at h
  | some e2 =>
    simp only [hc] at h
    by_cases hl : entryLive e2 now
    · simp only [hl, if_true] at h
      cases h
      exact hl
    · simp [hl] at h

lemma redisExpire_setCounter_live (s : RedisStore) (k : String × String) (v : Int)
    (exp : Option Nat) (now d : Nat) (hl : entryLive ⟨v, exp⟩ now = true) :
    redisExpire (setCounter s k ⟨v, exp⟩) now k d = setCounter s k ⟨v, some (now + d)⟩ := by
  simp only [redisExpire, liveEntry_setCounter_self, hl, if_true, setCounter_setCounter]

/-- Functional characterisation of the rate gate's normal path: it computes
the post-increment value `i = liveValue + 1`; when `i < maxReq` it answers
true having stored `i` with a fresh 5-second TTL, otherwise it answers false
having stored `i` under the key's previous TTL. -/
lemma incr_test_ok_spec (maxReq : Int) (s : RedisStore) (now : Nat) (g h : String) :
    IncrAndTestGuildTokenComboLock maxReq IncrOutcome.ok s now g h =
      (if liveValue s now (g, h) + 1 < maxReq then
        (true, setCounter s (g, h)
          ⟨liveValue s now (g, h) + 1, some (now + 5 * msSecond)⟩)
      else
        (false, setCounter s (g, h)
          ⟨liveValue s now (g, h) + 1, liveExpiry s now (g, h)⟩)) := by
  cases hp : liveEntry s now (g, h) with
  | none =>
    simp only [IncrAndTestGuildTokenComboLock, redisIncr, hp, liveValue, liveExpiry,
      zero_add]
    by_cases hi : (1 : Int) < maxReq
    · simp only [if_pos hi,
        redisExpire_setCounter_live s (g, h) 1 none now (5 * msSecond) rfl]
    · simp only [if_neg hi]
  | some e =>
    have hlive : entryLive e now = true := entryLive_of_liveEntry s now (g, h) e hp
    have hlive2 : entryLive ⟨e.value + 1, e.expiry⟩ now = true := by
      unfold entryLive at hlive ⊢
      exact hlive
    simp only [IncrAndTestGuildTokenComboLock, redisIncr, hp, liveValue, liveExpiry]
    by_cases hi : e.value + 1 < maxReq
    · simp only [if_pos hi,
        redisExpire_setCounter_live s (g, h) (e.value + 1) e.expiry now (5 * msSecond) hlive2]
    · simp only [if_neg hi]

lemma redisIncr_fst (s : RedisStore) (now : Nat) (k : String × String) :
    (redisIncr s now k).1 = liveValue s now k + 1 := by
  unfold redisIncr liveValue
  cases liveEntry s now k <;> simp

lemma redisIncr_snd (s : RedisStore) (now : Nat) (k : String × String) :
    (redisIncr s now k).2 = setCounter s k ⟨liveValue s now k + 1, liveExpiry s now k⟩ := by
  unfold redisIncr liveValue liveExpiry
  cases liveEntry s now k <;> simp

/-- C1: `IncrAndTestGuildTokenComboLock` first increments the stored
`RateCounter(guildID, identityHash)` (the `INCR` yields `liveValue + 1`),
returns true iff that post-increment value is strictly below
`maxRequests5Seconds`; on true the counter ends with a fresh 5-second TTL,
on false the store is exactly the post-increment store, its TTL untouched. -/
theorem rateGate_increments_then_tests_then_refreshes
    (maxReq : Int) (s : RedisStore) (now : Nat) (g h : String) :
    ((redisIncr s now (g, h)).1 = liveValue s now (g, h) + 1)
    ∧ ((IncrAndTestGuildTokenComboLock maxReq IncrOutcome.ok s now g h).1 = true
        ↔ liveValue s now (g, h) + 1 < maxReq)
    ∧ ((IncrAndTestGuildTokenComboLock maxReq IncrOutcome.ok s now g h).1 = true →
        (IncrAndTestGuildTokenComboLock maxReq IncrOutcome.ok s now g h).2.counters (g, h) =
          some ⟨liveValue s now (g, h) + 1, some (now + 5 * msSecond)⟩)
    ∧ ((IncrAndTestGuildTokenComboLock maxReq IncrOutcome.ok s now g h).1 = false →
        (IncrAndTestGuildTokenComboLock maxReq IncrOutcome.ok s now g h).2 =
          (redisIncr s now (g, h)).2) := by
  have hspec := incr_test_ok_spec maxReq s now g h
  by_cases hi : liveValue s now (g, h) + 1 < maxReq
  · rw [if_pos hi] at hspec
    refine ⟨redisIncr_fst s now (g, h), ?_, ?_, ?_⟩
    · rw [hspec]
      exact ⟨fun _ => hi, fun _ => rfl⟩
    · intro _
      rw [hspec]
      exact counters_setCounter_self _ _ _
    · intro hfalse
      rw [hspec] at hfalse
      simp at hfalse
  · rw [if_neg hi] at hspec
    refine ⟨redisIncr_fst s now (g, h), ?_, ?_, ?_⟩
    · rw [hspec]
      exact ⟨fun hh => absurd hh Bool.false_ne_true, fun hp2 => absurd hp2 hi⟩
    · intro htrue
      rw [hspec] at htrue
      simp at htrue
    · intro _
      rw [hspec, redisIncr_snd]

/-- C6: when the store increment inside the gate errors, the Go local `i`
keeps its zero value, so (with a positive configured maximum) the call is
treated as admitted: it returns true. -/
theorem incr_error_treated_as_admitted (maxReq : Int) (s : RedisStore)
    (now : Nat) (g h : String) (hmax : 1 ≤ maxReq) :
    (IncrAndTestGuildTokenComboLock maxReq IncrOutcome.err s now g h).1 = true := by
  have h0 : (0 : Int) < maxReq := by omega
  simp [IncrAndTestGuildTokenComboLock, h0]

/-- Witness for C6 at a concrete input. -/
theorem incr_error_treated_as_admitted_witness :
    (1 : Int) ≤ 5 ∧
    (IncrAndTestGuildTokenComboLock 5 IncrOutcome.err emptyStore 0 "g" "h").1 = true :=
  ⟨by decide, incr_error_treated_as_admitted 5 emptyStore 0 "g" "h" (by decide)⟩

/-- C8: `waitForAck` reports success exactly when the select ends with an
ack payload equal to the string "true" (the timer branch and any other
payload yield false), the deferred `pubsub.Close()` runs on every exit path,
and the default wait is `DefaultCaptureBotTimeout` = 1000 ms. -/
theorem waitForAck_ack_semantics_and_release :
    (∀ ev : AckEvent, ((waitForAck ev).result = true ↔ ev = AckEvent.payload "true"))
    ∧ (∀ ev : AckEvent, (waitForAck ev).closed = true)
    ∧ (waitForAck AckEvent.timeout).result = false
    ∧ DefaultCaptureBotTimeout = 1000 := by
  refine ⟨?_, ?_, rfl, rfl⟩
  · intro ev
    cases ev with
    | timeout => simp [waitForAck]
    | payload p => simp [waitForAck]
  · intro ev
    cases ev <;> rfl

lemma liveValue_setCounter_live (s : RedisStore) (k : String × String) (v : Int)
    (exp : Option Nat) (now : Nat) (hl : entryLive ⟨v, exp⟩ now = true) :
    liveValue (setCounter s k ⟨v, exp⟩) now k = v := by
  simp [liveValue, liveEntry_setCounter_self, hl]

/-- Once the counter holds a value at least `maxReq` under an expiry `exp`,
every further rate-gate call made strictly before `exp` answers false (each
such call still increments, keeping the value at least `maxReq`). -/
lemma callSeq_all_false_of_blocked (maxReq : Int) (g h : String) (exp : Nat) :
    ∀ (ts : List Nat) (s : RedisStore) (v : Int),
      s.counters (g, h) = some ⟨v, some exp⟩ → maxReq ≤ v →
      (∀ t ∈ ts, t < exp) →
      ((rateGateCallSeq maxReq g h s ts).1.all (fun b => b = false)) = true := by
  intro ts
  induction ts with
  | nil => intro s v _ _ _; rfl
  | cons t ts ih =>
    intro s v hc hv hts
    have hlt : t < exp := hts t (by simp)
    have hle : liveEntry s t (g, h) = some ⟨v, some exp⟩ := by
      simp [liveEntry, hc, entryLive, hlt]
    have hlv : liveValue s t (g, h) = v := by simp [liveValue, hle]
    have hlex : liveExpiry s t (g, h) = some exp := by simp [liveExpiry, hle]
    have hni : ¬(liveValue s t (g, h) + 1 < maxReq) := by rw [hlv]; omega
    have hstep := incr_test_ok_spec maxReq s t g h
    rw [if_neg hni, hlv, hlex] at hstep
    simp only [rateGateCallSeq, hstep, List.all_cons, Bool.and_eq_true, decide_eq_true_eq]
    refine ⟨by trivial, ?_⟩
    exact ih (setCounter s (g, h) ⟨v + 1, some exp⟩) (v + 1)
      (counters_setCounter_self _ _ _) (by omega)
      (fun t2 ht2 => hts t2 (by simp [ht2]))

/-- C4: `BlacklistTokenForDuration` stores `maxRequests5Seconds` under the
given TTL; every rate-gate call on that pair made before the TTL elapses
answers false; and — `attemptOnCaptureBot` being modelled from the spec — a
capture-bridge timeout blacklists the capture sentinel for
`UnresponsiveCaptureBlacklistDuration` (5 minutes), so every gate call on
the sentinel during those 5 minutes answers false. -/
theorem blacklist_blocks_until_ttl_elapses (maxReq : Int) (s : RedisStore) (t0 : Nat)
    (g h : String) (d : Nat) (ts : List Nat) (hts : ∀ t ∈ ts, t < t0 + d) :
    ((BlacklistTokenForDuration maxReq s t0 g h d).counters (g, h) =
        some ⟨maxReq, some (t0 + d)⟩)
    ∧ (((rateGateCallSeq maxReq g h (BlacklistTokenForDuration maxReq s t0 g h d) ts).1.all
        (fun b => b = false)) = true)
    ∧ (∀ (s2 : RedisStore) (g2 sent : String) (ts2 : List Nat),
        (∀ t ∈ ts2, t < t0 + UnresponsiveCaptureBlacklistDuration) →
        ((rateGateCallSeq maxReq g2 sent
            (captureBridgeTimeoutBlacklist maxReq s2 t0 g2 sent) ts2).1.all
          (fun b => b = false)) = true) := by
  refine ⟨counters_setCounter_self _ _ _, ?_, ?_⟩
  · exact callSeq_all_false_of_blocked maxReq g h (t0 + d) ts _ maxReq
      (counters_setCounter_self _ _ _) le_rfl hts
  · intro s2 g2 sent ts2 hts2
    exact callSeq_all_false_of_blocked maxReq g2 sent
      (t0 + UnresponsiveCaptureBlacklistDuration) ts2 _ maxReq
      (counters_setCounter_self _ _ _) le_rfl hts2

/-- Witness for C4 at concrete inputs. -/
theorem blacklist_blocks_until_ttl_elapses_witness :
    (∀ t ∈ [0, 3, 6], t < 0 + 7)
    ∧ ((BlacklistTokenForDuration 5 emptyStore 0 "g" "h" 7).counters ("g", "h") =
        some ⟨5, some 7⟩)
    ∧ (((rateGateCallSeq 5 "g" "h" (BlacklistTokenForDuration 5 emptyStore 0 "g" "h" 7)
        [0, 3, 6]).1.all (fun b => b = false)) = true)
    ∧ (((rateGateCallSeq 5 "g2" "cap"
        (captureBridgeTimeoutBlacklist 5 emptyStore 0 "g2" "cap") [1, 2]).1.all
        (fun b => b = false)) = true) :=
  ⟨by decide,
   (blacklist_blocks_until_ttl_elapses 5 emptyStore 0 "g" "h" 7 [0, 3, 6] (by decide)).1,
   (blacklist_blocks_until_ttl_elapses 5 emptyStore 0 "g" "h" 7 [0, 3, 6] (by decide)).2.1,
   (blacklist_blocks_until_ttl_elapses 5 emptyStore 0 "g" "h" 7 [0, 3, 6] (by decide)).2.2
     emptyStore "g2" "cap" [1, 2] (by decide)⟩

/-- Invariant for a same-instant burst on an initially absent counter: after
`k` calls the allowed count is `min k (maxReq - 1).toNat` and the live value
of the counter is exactly `k`. -/
lemma burst_invariant (maxReq : Int) (hmax : 1 ≤ maxReq) (s : RedisStore) (now : Nat)
    (g h : String) (habs : liveEntry s now (g, h) = none) (k : Nat) :
    (rateGateBurst maxReq s now g h k).1 = min k (maxReq - 1).toNat
    ∧ liveValue (rateGateBurst maxReq s now g h k).2 now (g, h) = (k : Int) := by
  induction k with
  | zero =>
    refine ⟨by simp [rateGateBurst], ?_⟩
    simp [rateGateBurst, liveValue, habs]
  | succ n ih =>
    obtain ⟨ihc, ihv⟩ := ih
    have hstep := incr_test_ok_spec maxReq (rateGateBurst maxReq s now g h n).2 now g h
    rw [ihv] at hstep
    have hliveexp : entryLive
        ⟨(n : Int) + 1, liveExpiry (rateGateBurst maxReq s now g h n).2 now (g, h)⟩ now
        = true := by
      cases hle : liveEntry (rateGateBurst maxReq s now g h n).2 now (g, h) with
      | none => simp [liveExpiry, hle, entryLive]
      | some e =>
        have h2 := entryLive_of_liveEntry _ now (g, h) e hle
        simp only [liveExpiry, hle]
        unfold entryLive at h2 ⊢
        exact h2
    have hfresh : entryLive ⟨(n : Int) + 1, some (now + 5 * msSecond)⟩ now = true := by
      simp [entryLive, msSecond]
    simp only [rateGateBurst]
    by_cases hi : (n : Int) + 1 < maxReq
    · rw [if_pos hi] at hstep
      rw [hstep]
      constructor
      · simp only [if_true]
        rw [ihc]
        omega
      · have := liveValue_setCounter_live (rateGateBurst maxReq s now g h n).2 (g, h)
          ((n : Int) + 1) (some (now + 5 * msSecond)) now hfresh
        rw [this]
        push_cast
        ring
    · rw [if_neg hi] at hstep
      rw [hstep]
      constructor
      · simp only [Bool.false_eq_true, if_false]
        rw [ihc]
        omega
      · have := liveValue_setCounter_live (rateGateBurst maxReq s now g h n).2 (g, h)
          ((n : Int) + 1)
          (liveExpiry (rateGateBurst maxReq s now g h n).2 now (g, h)) now hliveexp
        rw [this]
        push_cast
        ring

/-- C5: a burst of `k` rate-gate calls within a single 5-second window on an
initially absent counter yields at most `maxRequests5Seconds - 1` admissions
(exactly `min k (maxReq - 1)`). -/
theorem burst_admissions_at_most_maxreq_minus_one (maxReq : Int) (s : RedisStore)
    (now : Nat) (g h : String) (k : Nat) (hmax : 1 ≤ maxReq)
    (habs : s.counters (g, h) = none) :
    (((rateGateBurst maxReq s now g h k).1 : Int) ≤ maxReq - 1)
    ∧ (rateGateBurst maxReq s now g h k).1 = min k (maxReq - 1).toNat := by
  have habs2 : liveEntry s now (g, h) = none := by simp [liveEntry, habs]
  have hc := (burst_invariant maxReq hmax s now g h habs2 k).1
  exact ⟨by rw [hc]; omega, hc⟩

/-- Witness for C5 at concrete inputs: 10 calls with `maxReq = 5` admit
exactly 4. -/
theorem burst_admissions_at_most_maxreq_minus_one_witness :
    ((1 : Int) ≤ 5)
    ∧ (emptyStore.counters ("g", "h") = none)
    ∧ (((rateGateBurst 5 emptyStore 0 "g" "h" 10).1 : Int) ≤ 5 - 1)
    ∧ ((rateGateBurst 5 emptyStore 0 "g" "h" 10).1 = min 10 ((5 : Int) - 1).toNat) :=
  ⟨by decide, rfl,
   (burst_admissions_at_most_maxreq_minus_one 5 emptyStore 0 "g" "h" 10 (by decide) rfl).1,
   (burst_admissions_at_most_maxreq_minus_one 5 emptyStore 0 "g" "h" 10 (by decide) rfl).2⟩

/-- The loop of `getAnySession` stops at range index `limit`, so starting
from index `i ≤ limit` it invokes the rate gate on at most `limit - i`
entries. -/
lemma getAnySessionAux_attempted_le (maxReq : Int) (active : String → Bool)
    (now : Nat) (guildID : String) :
    ∀ (tokens : List String) (s : RedisStore) (i limit : Nat), i ≤ limit →
      (getAnySessionAux maxReq active now guildID s tokens i limit).2.2.length
        ≤ limit - i := by
  intro tokens
  induction tokens with
  | nil =>
    intro s i limit _
    simp [getAnySessionAux]
  | cons hToken rest ih =>
    intro s i limit hle
    by_cases hil : i = limit
    · simp [getAnySessionAux, hil]
    · have hlt : i < limit := Nat.lt_of_le_of_ne hle hil
      simp only [getAnySessionAux, if_neg hil]
      by_cases hr :
          (IncrAndTestGuildTokenComboLock maxReq IncrOutcome.ok s now guildID hToken).1 = true
      · simp only [hr, if_true]
        by_cases ha : active hToken = true
        · simp only [ha, if_true, List.length_cons, List.length_nil]
          omega
        · simp only [Bool.not_eq_true] at ha
          simp only [ha, Bool.false_eq_true, if_false, List.length_cons]
          have h2 := ih
            (sremGuildToken
              (IncrAndTestGuildTokenComboLock maxReq IncrOutcome.ok s now guildID hToken).2
              guildID hToken)
            (i + 1) limit hlt
          omega
      · simp only [Bool.not_eq_true] at hr
        simp only [hr, Bool.false_eq_true, if_false, List.length_cons]
        have h2 := ih
          (IncrAndTestGuildTokenComboLock maxReq IncrOutcome.ok s now guildID hToken).2
          (i + 1) limit hlt
        omega

/-- C3: per dispatched user, at most `limit = PremiumBotConstraints[premium]`
entries of the guild token sequence get a rate-gate attempt; the map is
exactly {0:0, 1:0, 2:1, 3:3, 4:10, 5:100} with 0 for every unknown tier; and
with `limit = 0` the secondary tier selects no session. -/
theorem secondary_attempts_bounded_by_premium_limit (tier maxReq : Int)
    (active : String → Bool) (now : Nat) (guildID : String) (s : RedisStore)
    (tokens : List String) :
    ((getAnySession maxReq active now guildID s tokens
        (PremiumBotConstraints tier)).2.2.length ≤ PremiumBotConstraints tier)
    ∧ (PremiumBotConstraints 0 = 0 ∧ PremiumBotConstraints 1 = 0
        ∧ PremiumBotConstraints 2 = 1 ∧ PremiumBotConstraints 3 = 3
        ∧ PremiumBotConstraints 4 = 10 ∧ PremiumBotConstraints 5 = 100)
    ∧ (∀ t : Int, (t < 0 ∨ 5 < t) → PremiumBotConstraints t = 0)
    ∧ (∀ (tokens2 : List String) (s2 : RedisStore),
        (getAnySession maxReq active now guildID s2 tokens2 0).1 = none) := by
  refine ⟨?_, by decide, ?_, ?_⟩
  · have h2 := getAnySessionAux_attempted_le maxReq active now guildID tokens s 0
      (PremiumBotConstraints tier) (Nat.zero_le _)
    simpa [getAnySession] using h2
  · intro t ht
    unfold PremiumBotConstraints
    split_ifs <;> omega
  · intro tokens2 s2
    cases tokens2 <;> simp [getAnySession, getAnySessionAux]

/-- C7: during the secondary tier, an entry that passes the rate gate but has
no session in the registry is removed from `GuildTokenSet(guildID)` in the
store, and the loop continues with the next entry instead of aborting. -/
theorem stale_membership_pruned_and_continues (maxReq : Int) (active : String → Bool)
    (now : Nat) (guildID : String) (s : RedisStore) (hToken : String)
    (rest : List String) (i limit : Nat) (hil : i ≠ limit)
    (hadm : (IncrAndTestGuildTokenComboLock maxReq IncrOutcome.ok s now guildID hToken).1
      = true)
    (habs : active hToken = false) :
    (hToken ∉ (sremGuildToken
        (IncrAndTestGuildTokenComboLock maxReq IncrOutcome.ok s now guildID hToken).2
        guildID hToken).guildTokens guildID)
    ∧ (getAnySessionAux maxReq active now guildID s (hToken :: rest) i limit =
        ((getAnySessionAux maxReq active now guildID
            (sremGuildToken
              (IncrAndTestGuildTokenComboLock maxReq IncrOutcome.ok s now guildID hToken).2
              guildID hToken) rest (i + 1) limit).1,
         (getAnySessionAux maxReq active now guildID
            (sremGuildToken
              (IncrAndTestGuildTokenComboLock maxReq IncrOutcome.ok s now guildID hToken).2
              guildID hToken) rest (i + 1) limit).2.1,
         hToken :: (getAnySessionAux maxReq active now guildID
            (sremGuildToken
              (IncrAndTestGuildTokenComboLock maxReq IncrOutcome.ok s now guildID hToken).2
              guildID hToken) rest (i + 1) limit).2.2)) := by
  constructor
  · simp [sremGuildToken, List.mem_filter]
  · simp only [getAnySessionAux, if_neg hil, hadm, if_true, habs, Bool.false_eq_true,
      if_false]

/-- Witness for C7 at concrete inputs. -/
theorem stale_membership_pruned_and_continues_witness :
    ((0 : Nat) ≠ 3)
    ∧ ((IncrAndTestGuildTokenComboLock 5 IncrOutcome.ok emptyStore 0 "g" "a").1 = true)
    ∧ ((fun (_ : String) => false) "a" = false)
    ∧ (("a" ∉ (sremGuildToken
          (IncrAndTestGuildTokenComboLock 5 IncrOutcome.ok emptyStore 0 "g" "a").2
          "g" "a").guildTokens "g")
        ∧ (getAnySessionAux 5 (fun _ => false) 0 "g" emptyStore ["a"] 0 3 =
            ((getAnySessionAux 5 (fun _ => false) 0 "g"
                (sremGuildToken
                  (IncrAndTestGuildTokenComboLock 5 IncrOutcome.ok emptyStore 0 "g" "a").2
                  "g" "a") [] 1 3).1,
             (getAnySessionAux 5 (fun _ => false) 0 "g"
                (sremGuildToken
                  (IncrAndTestGuildTokenComboLock 5 IncrOutcome.ok emptyStore 0 "g" "a").2
                  "g" "a") [] 1 3).2.1,
             "a" :: (getAnySessionAux 5 (fun _ => false) 0 "g"
                (sremGuildToken
                  (IncrAndTestGuildTokenComboLock 5 IncrOutcome.ok emptyStore 0 "g" "a").2
                  "g" "a") [] 1 3).2.2))) :=
  ⟨by decide, by decide, rfl,
   stale_membership_pruned_and_continues 5 (fun _ => false) 0 "g" emptyStore "a" [] 0 3
     (by decide) (by decide) rfl⟩

/-- C10 (implicit): in the secondary tier the rate counter is incremented
and its TTL refreshed before the registry lookup, so an admitted entry whose
session is absent still consumes one unit of the pair's 5-second quota: after
the stale entry is pruned, the counter stands at its previous live value plus
one with a fresh 5-second TTL, and the dispatch continues with the rest of
the sequence. -/
theorem stale_admitted_entry_consumes_quota (maxReq : Int) (active : String → Bool)
    (now : Nat) (guildID : String) (s : RedisStore) (hToken : String)
    (rest : List String) (i limit : Nat) (hil : i ≠ limit)
    (hadm : (IncrAndTestGuildTokenComboLock maxReq IncrOutcome.ok s now guildID hToken).1
      = true)
    (habs : active hToken = false) :
    ((sremGuildToken
        (IncrAndTestGuildTokenComboLock maxReq IncrOutcome.ok s now guildID hToken).2
        guildID hToken).counters (guildID, hToken) =
      some ⟨liveValue s now (guildID, hToken) + 1, some (now + 5 * msSecond)⟩)
    ∧ ((getAnySessionAux maxReq active now guildID s (hToken :: rest) i limit).1 =
        (getAnySessionAux maxReq active now guildID
          (sremGuildToken
            (IncrAndTestGuildTokenComboLock maxReq IncrOutcome.ok s now guildID hToken).2
            guildID hToken) rest (i + 1) limit).1) := by
  have hspec := incr_test_ok_spec maxReq s now guildID hToken
  by_cases hi : liveValue s now (guildID, hToken) + 1 < maxReq
  · rw [if_pos hi] at hspec
    constructor
    · rw [hspec]
      show (setCounter s (guildID, hToken) _).counters (guildID, hToken) = _
      exact counters_setCounter_self _ _ _
    · simp only [getAnySessionAux, if_neg hil, hadm, if_true, habs, Bool.false_eq_true,
        if_false]
  · rw [if_neg hi] at hspec
    rw [hspec] at hadm
    simp at hadm

/-- Witness for C10 at concrete inputs. -/
theorem stale_admitted_entry_consumes_quota_witness :
    ((0 : Nat) ≠ 2)
    ∧ ((IncrAndTestGuildTokenComboLock 7 IncrOutcome.ok emptyStore 4 "gg" "b").1 = true)
    ∧ ((fun (_ : String) => false) "b" = false)
    ∧ (((sremGuildToken
          (IncrAndTestGuildTokenComboLock 7 IncrOutcome.ok emptyStore 4 "gg" "b").2
          "gg" "b").counters ("gg", "b") =
        some ⟨liveValue emptyStore 4 ("gg", "b") + 1, some (4 + 5 * msSecond)⟩)
        ∧ ((getAnySessionAux 7 (fun _ => false) 4 "gg" emptyStore ["b"] 0 2).1 =
            (getAnySessionAux 7 (fun _ => false) 4 "gg"
              (sremGuildToken
                (IncrAndTestGuildTokenComboLock 7 IncrOutcome.ok emptyStore 4 "gg" "b").2
                "gg" "b") [] 1 2).1)) :=
  ⟨by decide, by decide, rfl,
   stale_admitted_entry_consumes_quota 7 (fun _ => false) 4 "gg" emptyStore "b" [] 0 2
     (by decide) (by decide) rfl⟩

lemma unaccountedCount_cons (oracle : UserModify → Bool × Bool × Bool)
    (u : UserModify) (rest : List UserModify) :
    unaccountedCount oracle (u :: rest) =
      (if userOutcome oracle u = Outcome.unaccounted then 1 else 0)
        + unaccountedCount oracle rest := by
  unfold unaccountedCount
  rw [List.filter_cons]
  by_cases hcase : userOutcome oracle u = Outcome.unaccounted
  · rw [if_pos (by simp [hcase]), if_pos hcase]
    simp only [List.length_cons]
    omega
  · rw [if_neg (by simp [hcase]), if_neg hcase]
    omega

/-- Folding the worker-loop tally over a batch adds exactly one charged
counter per user that is not unaccounted. -/
lemma foldl_tally_partition (oracle : UserModify → Bool × Bool × Bool) :
    ∀ (users : List UserModify) (m : MuteDeafenSuccessCounts),
      (users.foldl (fun m2 u => tallyOutcome m2 (userOutcome oracle u)) m).Worker
        + (users.foldl (fun m2 u => tallyOutcome m2 (userOutcome oracle u)) m).Capture
        + (users.foldl (fun m2 u => tallyOutcome m2 (userOutcome oracle u)) m).Official
        + unaccountedCount oracle users
      = m.Worker + m.Capture + m.Official + users.length := by
  intro users
  induction users with
  | nil =>
    intro m
    simp [unaccountedCount]
  | cons u rest ih =>
    intro m
    rw [List.foldl_cons, unaccountedCount_cons]
    have h2 := ih (tallyOutcome m (userOutcome oracle u))
    cases hout : userOutcome oracle u with
    | worker =>
      rw [hout] at h2
      simp only [tallyOutcome] at h2
      simp only [tallyOutcome, List.length_cons]
      rw [if_neg (by decide : ¬(Outcome.worker = Outcome.unaccounted))]
      omega
    | capture =>
      rw [hout] at h2
      simp only [tallyOutcome] at h2
      simp only [tallyOutcome, List.length_cons]
      rw [if_neg (by decide : ¬(Outcome.capture = Outcome.unaccounted))]
      omega
    | official =>
      rw [hout] at h2
      simp only [tallyOutcome] at h2
      simp only [tallyOutcome, List.length_cons]
      rw [if_neg (by decide : ¬(Outcome.official = Outcome.unaccounted))]
      omega
    | unaccounted =>
      rw [hout] at h2
      simp only [tallyOutcome] at h2
      simp only [tallyOutcome, List.length_cons]
      rw [if_pos trivial]
      omega

/-- C2: over a batch of `N` users the worker loop charges each user to at
most one of the worker/capture/official counters (the tally moves exactly
one counter by one unless the user is unaccounted, and never touches
`RateLimit`), the tiers are attempted in the strict order secondary →
capture → primary (the capture call happens iff the secondary tier failed,
the primary call iff both failed), and
`worker + capture + official + unaccounted = N` with `unaccounted ≥ 0`. -/
theorem modify_batch_tier_partition (oracle : UserModify → Bool × Bool × Bool)
    (users : List UserModify) :
    ((runModifyWorkers oracle users).Worker + (runModifyWorkers oracle users).Capture
        + (runModifyWorkers oracle users).Official + unaccountedCount oracle users
      = users.length)
    ∧ (0 ≤ unaccountedCount oracle users)
    ∧ (∀ sec cap off : Bool,
        ((dispatchUser sec cap off).2 = [Tier.secondary]
          ∨ (dispatchUser sec cap off).2 = [Tier.secondary, Tier.capture]
          ∨ (dispatchUser sec cap off).2 = [Tier.secondary, Tier.capture, Tier.official])
        ∧ (Tier.capture ∈ (dispatchUser sec cap off).2 ↔ sec = false)
        ∧ (Tier.official ∈ (dispatchUser sec cap off).2 ↔ (sec = false ∧ cap = false)))
    ∧ (∀ (m : MuteDeafenSuccessCounts) (o : Outcome),
        ((tallyOutcome m o).Worker + (tallyOutcome m o).Capture
            + (tallyOutcome m o).Official
          = m.Worker + m.Capture + m.Official
            + (if o = Outcome.unaccounted then 0 else 1))
        ∧ (tallyOutcome m o).RateLimit = m.RateLimit) := by
  refine ⟨?_, Nat.zero_le _, ?_, ?_⟩
  · have h2 := foldl_tally_partition oracle users ⟨0, 0, 0, 0⟩
    simpa [runModifyWorkers] using h2
  · intro sec cap off
    cases sec <;> cases cap <;> cases off <;> refine ⟨by decide, by decide, by decide⟩
  · intro m o
    cases o <;> simp [tallyOutcome] <;> omega

/-- C9 counterexample: for the valid guildID "100", a decodable body and an
empty users array, the handler still starts `DefaultMaxWorkers = 8` worker
goroutines (the spawn loop runs before the batch length is consulted), so
"no worker is started" fails; status and counters are as claimed. -/
theorem empty_batch_workers_still_spawned_counterexample :
    (parseUint64 "100" = some 100)
    ∧ ((handleModify DefaultMaxWorkers (fun _ => (false, false, false)) "100"
        (some ⟨3, []⟩)).status = 200)
    ∧ ((handleModify DefaultMaxWorkers (fun _ => (false, false, false)) "100"
        (some ⟨3, []⟩)).counts = some ⟨0, 0, 0, 0⟩)
    ∧ ((handleModify DefaultMaxWorkers (fun _ => (false, false, false)) "100"
        (some ⟨3, []⟩)).workersSpawned = 8)
    ∧ ¬((handleModify DefaultMaxWorkers (fun _ => (false, false, false)) "100"
        (some ⟨3, []⟩)).workersSpawned = 0) := by
  refine ⟨by decide, by decide, by decide, by decide, by decide⟩

/-- C9 (amended): a POST /modify with a valid guildID, a decodable body and
an empty users array answers 200 with all four counters zero and feeds no
task to the worker pool — but the pool of `maxWorkers` worker goroutines is
still spawned for the batch. -/
theorem empty_batch_200_zero_counters_no_tasks (maxWorkers : Nat)
    (oracle : UserModify → Bool × Bool × Bool) (guildID : String)
    (body : Option UserModifyRequest) (req : UserModifyRequest) (gid : Nat)
    (hg : parseUint64 guildID = some gid) (hb : body = some req)
    (hu : req.users = []) :
    ((handleModify maxWorkers oracle guildID body).status = 200)
    ∧ ((handleModify maxWorkers oracle guildID body).counts = some ⟨0, 0, 0, 0⟩)
    ∧ ((handleModify maxWorkers oracle guildID body).tasksFed = 0)
    ∧ ((handleModify maxWorkers oracle guildID body).workersSpawned = maxWorkers) := by
  subst hb
  simp [handleModify, hg, hu, runModifyWorkers]

/-- Witness for the amended C9 at concrete inputs. -/
theorem empty_batch_200_zero_counters_no_tasks_witness :
    (parseUint64 "42" = some 42)
    ∧ ((some (⟨2, []⟩ : UserModifyRequest)) = some ⟨2, []⟩)
    ∧ ((⟨2, []⟩ : UserModifyRequest).users = [])
    ∧ (((handleModify 3 (fun _ => (true, false, false)) "42"
          (some ⟨2, []⟩)).status = 200)
        ∧ ((handleModify 3 (fun _ => (true, false, false)) "42"
          (some ⟨2, []⟩)).counts = some ⟨0, 0, 0, 0⟩)
        ∧ ((handleModify 3 (fun _ => (true, false, false)) "42"
          (some ⟨2, []⟩)).tasksFed = 0)
        ∧ ((handleModify 3 (fun _ => (true, false, false)) "42"
          (some ⟨2, []⟩)).workersSpawned = 3)) :=
  ⟨by decide, rfl, rfl,
   empty_batch_200_zero_counters_no_tasks 3 (fun _ => (true, false, false)) "42"
     (some ⟨2, []⟩) ⟨2, []⟩ 42 (by decide) rfl rfl⟩
